import Mathlib

/-!
Verification development for the Jobly jobs resource module.

Source of truth: `src/routes/jobs.js` (the Express route handlers for
`/jobs`) and `src/unnamed/part_000` (the integration tests for those
routes).  The Job repository (`models/job`), the JSON schemas
(`jobNew.json`, `jobUpdate.json`, `jobSearch.json`), the `ensureAdmin`
middleware and the centralized error responder are not part of the
source tree; following the specification they are modelled from its
text, and every such definition is marked `Modelled from the spec:`.

JavaScript values are embedded shallowly: an object is an ordered
association list of string keys to values, a query string arrives with
string values, unary `+` on a string is a digit parser that yields NaN
on anything that is not a nonnegative integer literal (the claims only
exercise integer literals), and property access on a name an object
does not have yields `undefined`, whose truthiness is `false`.
-/

namespace Jobly

/-- A JavaScript value, restricted to the shapes the jobs module moves
around: strings, numbers (NaN kept apart), booleans and null. -/
inductive JsValue
  | str (s : String)
  | num (n : Int)
  | nan
  | bool (b : Bool)
  | null
deriving DecidableEq, Repr

/-- A JavaScript object: an ordered association of keys to values. -/
abbrev JsObject := List (String × JsValue)

/-- Property read: the value at the first occurrence of the key, or
`none` (JavaScript `undefined`) when the object has no such key. -/
def objGet (o : JsObject) (k : String) : Option JsValue :=
  match o with
  | [] => none
  | (k', v) :: rest => if k' = k then some v else objGet rest k

/-- Property write: replace the value at an existing key, or append the
key when absent (JavaScript assignment `o.k = v`). -/
def objSet (o : JsObject) (k : String) (v : JsValue) : JsObject :=
  match o with
  | [] => [(k, v)]
  | (k', v') :: rest => if k' = k then (k, v) :: rest else (k', v') :: objSet rest k v

/-- Accumulating decimal-digit parser; fails on the first non-digit. -/
def parseDigitsAux : List Char → Nat → Option Nat
  | [], acc => some acc
  | c :: cs, acc =>
      if c.isDigit then parseDigitsAux cs (acc * 10 + (c.toNat - 48)) else none

/-- JavaScript unary `+` applied to a string: a nonnegative integer
literal yields its value, the empty string yields 0, anything else
yields NaN (decimal points, signs and whitespace are out of the claims'
scope and land on NaN). -/
def jsToNumber (s : String) : JsValue :=
  match parseDigitsAux s.data 0 with
  | some n => JsValue.num (Int.ofNat n)
  | none => JsValue.nan

/-- JavaScript unary `+` on a value. -/
def jsPlus : JsValue → JsValue
  | JsValue.str s => jsToNumber s
  | JsValue.num n => JsValue.num n
  | JsValue.nan => JsValue.nan
  | JsValue.bool b => JsValue.num (if b then 1 else 0)
  | JsValue.null => JsValue.num 0

/-- Query-string coercion performed by the GET /jobs handler before
validation (jobs.js lines 57-58): when `minSalary` is present its value
is replaced by `+minSalary`, and `hasEquity` is assigned the boolean
result of the strict comparison `hasEquity === "true"` (reading the
object after the `minSalary` write, as the source mutates in place). -/
def coerceQuery (q : JsObject) : JsObject :=
  let q1 := match objGet q "minSalary" with
    | none => q
    | some v => objSet q "minSalary" (jsPlus v)
  objSet q1 "hasEquity"
    (JsValue.bool (decide (objGet q1 "hasEquity" = some (JsValue.str "true"))))

/-- Modelled from the spec: the Job entity of the data model (section 3;
`models/job` is not under src/).  The stored decimal equity string is
represented by its rational value, `none` standing for SQL NULL; the
company join of the listing shape is carried denormalized where needed
and the full company sub-record of `get` is omitted, as no claim
inspects it. -/
structure Job where
  id : Int
  title : String
  salary : Option Int
  equity : Option ℚ
  companyHandle : String
deriving DecidableEq, Repr

/-- Modelled from the spec: the recognized search filters of the Filter
Clause Builder (section 4.1; `models/job` is not under src/). -/
structure Filters where
  minSalary : Option Int
  hasEquity : Option Bool
  title : Option String
deriving DecidableEq, Repr

/-- Extraction of the recognized filters from the query object handed to
`findAll`; a value of the wrong shape counts as absent (the schema layer
is expected to have rejected it). -/
def filtersOf (o : JsObject) : Filters :=
  { minSalary := match objGet o "minSalary" with
      | some (JsValue.num n) => some n
      | _ => none
    hasEquity := match objGet o "hasEquity" with
      | some (JsValue.bool b) => some b
      | _ => none
    title := match objGet o "title" with
      | some (JsValue.str t) => some t
      | _ => none }

/-- Does the pattern match at the head of the haystack. -/
def matchesAt : List Char → List Char → Bool
  | [], _ => true
  | _ :: _, [] => false
  | p :: ps, c :: cs => decide (p = c) && matchesAt ps cs

/-- Does the pattern occur anywhere in the haystack. -/
def containsSub (pat : List Char) : List Char → Bool
  | [] => matchesAt pat []
  | c :: rest => matchesAt pat (c :: rest) || containsSub pat rest

/-- Modelled from the spec: a job has strictly positive equity; the SQL
predicate `equity > 0` is false on a NULL equity. -/
def hasPositiveEquity (j : Job) : Bool :=
  match j.equity with
  | some e => decide (0 < e)
  | none => false

/-- Modelled from the spec: the combined row predicate produced by the
Filter Clause Builder (section 4.1; `models/job` is not under src/) —
`salary >= minSalary` when `minSalary` is present (false on NULL
salary), `equity > 0` exactly when `hasEquity` is the boolean true
(false or absent adds no equity predicate), and case-insensitive
substring match on `title` when present. -/
def jobMatches (f : Filters) (j : Job) : Bool :=
  (match f.minSalary with
    | some m => match j.salary with
      | some s => decide (m ≤ s)
      | none => false
    | none => true) &&
  (match f.hasEquity with
    | some true => hasPositiveEquity j
    | _ => true) &&
  (match f.title with
    | some t => containsSub t.toLower.data j.title.toLower.data
    | none => true)

/-- Insert a job into a title-sorted list, keeping the order. -/
def insertByTitle (j : Job) : List Job → List Job
  | [] => [j]
  | k :: ks => match compare j.title k.title with
    | Ordering.gt => k :: insertByTitle j ks
    | _ => j :: k :: ks

/-- Modelled from the spec: `findAll` orders its results by title
ascending (section 4.3); insertion sort on the title ordering. -/
def sortByTitle : List Job → List Job
  | [] => []
  | j :: js => insertByTitle j (sortByTitle js)

/-- Modelled from the spec: the repository search operation
`Job.findAll` (section 4.3; `models/job` is not under src/): the rows
satisfying every present filter, ordered by title ascending. -/
def findAll (db : List Job) (o : JsObject) : List Job :=
  sortByTitle (db.filter (fun j => jobMatches (filtersOf o) j))

/-- Errors a request can raise: the domain error classes of the error
taxonomy (BadRequestError, UnauthorizedError, NotFoundError; modelled
from spec section 7, `expressError` not being under src/), plus the
JavaScript ReferenceError raised when a handler touches an identifier
that is not bound in its scope. -/
inductive JsError
  | badRequest (messages : List String)
  | unauthorized
  | notFound (message : String)
  | referenceError (name : String)
deriving DecidableEq, Repr

/-- Bodies of the JSON responses the jobs routes produce. -/
inductive ResponseBody
  | jobsBody (js : List Job)
  | jobBody (j : Job)
  | deleted (v : JsValue)
  | errBody (messages : List String) (status : Nat)
deriving DecidableEq, Repr

/-- What a handler run does to the HTTP exchange: a response sent by the
handler itself, an error handed to `next` for the centralized error
responder, or an error that escaped the async handler so that no
response is ever sent (Express 4 does not catch a rejected handler
promise). -/
inductive HttpOutcome
  | sent (status : Nat) (body : ResponseBody)
  | errorForwarded (e : JsError)
  | noResponse (e : JsError)
deriving DecidableEq, Repr

/-- A call made into the Job repository, with the argument the handler
passed (path ids travel as the raw path-segment strings, as in the
source). -/
inductive RepoCall
  | create (body : JsObject)
  | findAllCall (q : JsObject)
  | get (idStr : String)
  | update (idStr : String) (body : JsObject)
  | remove (idStr : String)
deriving DecidableEq, Repr

/-- Modelled from the spec: the status the centralized error responder
assigns to each error class (section 7; the responder is not under
src/); an unclassified runtime failure maps to 500. -/
def statusOf : JsError → Nat
  | JsError.badRequest _ => 400
  | JsError.unauthorized => 401
  | JsError.notFound _ => 404
  | JsError.referenceError _ => 500

/-- Message list carried in the error body; validation errors keep the
full list of schema violations. -/
def messagesOf : JsError → List String
  | JsError.badRequest msgs => msgs
  | JsError.unauthorized => ["Unauthorized"]
  | JsError.notFound m => [m]
  | JsError.referenceError n => [n ++ " is not defined"]

/-- Modelled from the spec: the final HTTP response of an exchange
(section 7): a sent response stands; a forwarded error is rendered by
the one centralized responder; an escaped error leaves the request
without any response. -/
def respond : HttpOutcome → Option (Nat × ResponseBody)
  | HttpOutcome.sent s b => some (s, b)
  | HttpOutcome.errorForwarded e =>
      some (statusOf e, ResponseBody.errBody (messagesOf e) (statusOf e))
  | HttpOutcome.noResponse _ => none

/-- Status code of the final HTTP response, when one is sent at all. -/
def respondStatus (o : HttpOutcome) : Option Nat :=
  (respond o).map (fun p => p.1)

/-- The result object the validation engine returns, exposing exactly
the fields `valid` and `errors` (spec section 6), the errors already as
their stack messages. -/
structure ValidatorResult where
  valid : Bool
  errors : List String
deriving DecidableEq, Repr

/-- Reading the property named `validate` from a validation result, as
jobs.js line 62 does: the object has no such field, so the JavaScript
property access yields `undefined`. -/
def validateProp (_ : ValidatorResult) : Option Bool := none

/-- Truthiness of a possibly-undefined boolean: `undefined` is falsy. -/
def jsTruthy : Option Bool → Bool
  | none => false
  | some b => b

/-- Modelled from the spec: validation against the job search schema
(`jobSearch.json` is not under src/; sections 4.1 and 4.4): the only
recognized keys are `title`, `minSalary` and `hasEquity`; `minSalary`
must be a nonnegative number, `hasEquity` a boolean, `title` a string;
one violation message per failed check, any unrecognized key a
violation. -/
def jobSearchValidate (o : JsObject) : ValidatorResult :=
  let unknownErrs := ((o.map (fun p => p.1)).filter
      (fun k => !(["title", "minSalary", "hasEquity"].contains k))).map
    (fun k => "instance is not allowed to have the additional property " ++ k)
  let minErrs := match objGet o "minSalary" with
    | none => []
    | some (JsValue.num n) =>
        if 0 ≤ n then [] else ["instance.minSalary must be greater than or equal to 0"]
    | some _ => ["instance.minSalary is not of a type(s) integer"]
  let eqErrs := match objGet o "hasEquity" with
    | none => []
    | some (JsValue.bool _) => []
    | some _ => ["instance.hasEquity is not of a type(s) boolean"]
  let titleErrs := match objGet o "title" with
    | none => []
    | some (JsValue.str _) => []
    | some _ => ["instance.title is not of a type(s) string"]
  let errs := unknownErrs ++ minErrs ++ eqErrs ++ titleErrs
  { valid := errs.isEmpty, errors := errs }

/-- Modelled from the spec: validation against the job creation schema
(`jobNew.json` is not under src/; section 4.4): `title`, `salary`,
`equity` and `companyHandle` are required with correct types — string,
number, decimal string, string; one violation message per failed
check. -/
def jobNewValidate (o : JsObject) : ValidatorResult :=
  let titleErrs := match objGet o "title" with
    | none => ["instance requires property title"]
    | some (JsValue.str _) => []
    | some _ => ["instance.title is not of a type(s) string"]
  let salaryErrs := match objGet o "salary" with
    | none => ["instance requires property salary"]
    | some (JsValue.num _) => []
    | some _ => ["instance.salary is not of a type(s) integer"]
  let equityErrs := match objGet o "equity" with
    | none => ["instance requires property equity"]
    | some (JsValue.str _) => []
    | some _ => ["instance.equity is not of a type(s) string"]
  let handleErrs := match objGet o "companyHandle" with
    | none => ["instance requires property companyHandle"]
    | some (JsValue.str _) => []
    | some _ => ["instance.companyHandle is not of a type(s) string"]
  let errs := titleErrs ++ salaryErrs ++ equityErrs ++ handleErrs
  { valid := errs.isEmpty, errors := errs }

/-- Modelled from the spec: validation against the job update schema
(`jobUpdate.json` is not under src/; section 4.4): only `title`,
`salary` and `equity` are allowed, all optional, with correct types;
any unknown key, `handle` and `companyHandle` included, is a
violation. -/
def jobUpdateValidate (o : JsObject) : ValidatorResult :=
  let unknownErrs := ((o.map (fun p => p.1)).filter
      (fun k => !(["title", "salary", "equity"].contains k))).map
    (fun k => "instance is not allowed to have the additional property " ++ k)
  let titleErrs := match objGet o "title" with
    | none => []
    | some (JsValue.str _) => []
    | some _ => ["instance.title is not of a type(s) string"]
  let salaryErrs := match objGet o "salary" with
    | none => []
    | some (JsValue.num _) => []
    | some _ => ["instance.salary is not of a type(s) integer"]
  let equityErrs := match objGet o "equity" with
    | none => []
    | some (JsValue.str _) => []
    | some _ => ["instance.equity is not of a type(s) string"]
  let errs := unknownErrs ++ titleErrs ++ salaryErrs ++ equityErrs
  { valid := errs.isEmpty, errors := errs }

/-- Parse a decimal equity string such as "0.2" into its rational
value; `none` on anything that is not a decimal literal. -/
def parseEquity (s : String) : Option ℚ :=
  match s.data.splitOn '.' with
  | [w] => (parseDigitsAux w 0).map (fun n => (n : ℚ))
  | [w, f] =>
      match parseDigitsAux w 0, parseDigitsAux f 0 with
      | some n, some m => some ((n : ℚ) + (m : ℚ) / ((10 : ℚ) ^ f.length))
      | _, _ => none
  | _ => none

/-- Modelled from the spec: the id the store assigns to a newly inserted
row — a fresh positive integer never previously returned (section 8). -/
def freshId (db : List Job) : Int :=
  1 + db.foldr (fun j m => max j.id m) 0

/-- Does a stored row match a path-segment id: the store compares the
row id with the numeric value of the string the handler passed. -/
def rowMatches (idStr : String) (j : Job) : Bool :=
  decide (jsToNumber idStr = JsValue.num j.id)

/-- Modelled from the spec: the repository operation `Job.create`
(section 4.3; `models/job` is not under src/): insert a row built from
`{title, salary, equity, companyHandle}` with a store-assigned fresh
id, failing with NotFoundError when `companyHandle` references no
existing company (the store's foreign-key violation translated to a
domain error).  Field extraction expects the schema-validated shapes. -/
def createOp (companies : List String) (db : List Job) (body : JsObject) :
    Except JsError Job :=
  match objGet body "title", objGet body "salary",
        objGet body "equity", objGet body "companyHandle" with
  | some (JsValue.str t), some (JsValue.num s),
      some (JsValue.str e), some (JsValue.str ch) =>
      if companies.contains ch then
        Except.ok { id := freshId db, title := t, salary := some s,
                    equity := parseEquity e, companyHandle := ch }
      else Except.error (JsError.notFound ("No company: " ++ ch))
  | _, _, _, _ => Except.error (JsError.badRequest ["invalid job data"])

/-- Modelled from the spec: the repository operation `Job.get` (section
4.3; `models/job` is not under src/): the row with the given id, or
NotFoundError when none matches. -/
def getOp (db : List Job) (idStr : String) : Except JsError Job :=
  match db.find? (fun j => rowMatches idStr j) with
  | some j => Except.ok j
  | none => Except.error (JsError.notFound ("No job: " ++ idStr))

/-- Apply a sparse update map to a row: `title`, `salary` and `equity`
are replaced when present, every other field kept. -/
def applyUpdate (j : Job) (data : JsObject) : Job :=
  { j with
    title := match objGet data "title" with
      | some (JsValue.str t) => t
      | _ => j.title
    salary := match objGet data "salary" with
      | some (JsValue.num s) => some s
      | _ => j.salary
    equity := match objGet data "equity" with
      | some (JsValue.str e) => parseEquity e
      | _ => j.equity }

/-- Modelled from the spec: the repository operation `Job.update`
(sections 4.2 and 4.3; `models/job` is not under src/): reject a body
containing `companyHandle` (immutability) and an empty field map, fail
with NotFoundError when no row matches the id, else return the updated
row. -/
def updateOp (db : List Job) (idStr : String) (data : JsObject) :
    Except JsError Job :=
  if (data.map (fun p => p.1)).contains "companyHandle" then
    Except.error (JsError.badRequest ["companyHandle is not updatable"])
  else if data.isEmpty then
    Except.error (JsError.badRequest ["No data"])
  else
    match db.find? (fun j => rowMatches idStr j) with
    | some j => Except.ok (applyUpdate j data)
    | none => Except.error (JsError.notFound ("No job: " ++ idStr))

/-- Modelled from the spec: the repository operation `Job.remove`
(section 4.3; `models/job` is not under src/): delete the row with the
given id, failing with NotFoundError when none matches; returns
nothing. -/
def removeOp (db : List Job) (idStr : String) : Except JsError Unit :=
  match db.find? (fun j => rowMatches idStr j) with
  | some _ => Except.ok ()
  | none => Except.error (JsError.notFound ("No job: " ++ idStr))

/-- The POST / handler body (jobs.js lines 26-40): validate the body
against the creation schema, throwing a BadRequestError carrying every
violation message when invalid; else call `Job.create` with the body
and send 201 with `{job}`; every thrown error is forwarded via
`next`. -/
def postHandler (companies : List String) (body : JsObject) (db : List Job) :
    HttpOutcome × List RepoCall :=
  let v := jobNewValidate body
  if !v.valid then
    (HttpOutcome.errorForwarded (JsError.badRequest v.errors), [])
  else
    match createOp companies db body with
    | Except.ok j => (HttpOutcome.sent 201 (ResponseBody.jobBody j), [RepoCall.create body])
    | Except.error e => (HttpOutcome.errorForwarded e, [RepoCall.create body])

/-- The GET / handler body (jobs.js lines 53-72): coerce the query, run
the search-schema validation, then test `validator.validate` — a
property the validation result does not have (spec section 6), so the
access yields `undefined`, `!validator.validate` is always true, and
the handler throws a BadRequestError built from the (possibly empty)
error list on every request; the `Job.findAll` branch is what the
source would run were the test `validator.valid`. -/
def listHandler (q : JsObject) (db : List Job) : HttpOutcome × List RepoCall :=
  let q2 := coerceQuery q
  let v := jobSearchValidate q2
  if !(jsTruthy (validateProp v)) then
    (HttpOutcome.errorForwarded (JsError.badRequest v.errors), [])
  else
    (HttpOutcome.sent 200 (ResponseBody.jobsBody (findAll db q2)), [RepoCall.findAllCall q2])

/-- The GET /:id handler body (jobs.js lines 82-90): call `Job.get`
with the path id and send `{job}`; every thrown error is forwarded via
`next`. -/
def getHandler (idStr : String) (db : List Job) : HttpOutcome × List RepoCall :=
  match getOp db idStr with
  | Except.ok j => (HttpOutcome.sent 200 (ResponseBody.jobBody j), [RepoCall.get idStr])
  | Except.error e => (HttpOutcome.errorForwarded e, [RepoCall.get idStr])

/-- The parameter list of the PATCH /:id handler as declared in the
source: `async function ()` (jobs.js line 101) binds nothing, so `req`,
`res` and `next` are unbound inside it. -/
def patchHandlerParams : List String := []

/-- The PATCH /:id handler body (jobs.js lines 101-115).  In a scope
binding `req`, `res` and `next` it would validate the body against the
update schema (throwing a BadRequestError with every violation
message), call `Job.update` with the path id and body, and send
`{job}`.  The declared parameter list is empty, so evaluating
`req.body` (line 103) throws `ReferenceError: req is not defined`; the
catch block (line 112) catches it, but its `next(error)` evaluates the
equally unbound `next`, so a second ReferenceError escapes the async
handler and no response is ever sent. -/
def patchHandler (idStr : String) (body : JsObject) (db : List Job) :
    HttpOutcome × List RepoCall :=
  if "req" ∈ patchHandlerParams then
    let v := jobUpdateValidate body
    let forward := fun (e : JsError) =>
      if "next" ∈ patchHandlerParams then
        (HttpOutcome.errorForwarded e, ([] : List RepoCall))
      else (HttpOutcome.noResponse (JsError.referenceError "next"), ([] : List RepoCall))
    if !v.valid then forward (JsError.badRequest v.errors)
    else
      match updateOp db idStr body with
      | Except.ok j =>
          (HttpOutcome.sent 200 (ResponseBody.jobBody j), [RepoCall.update idStr body])
      | Except.error e =>
          ((forward e).1, [RepoCall.update idStr body])
  else
    if "next" ∈ patchHandlerParams then
      (HttpOutcome.errorForwarded (JsError.referenceError "req"), [])
    else
      (HttpOutcome.noResponse (JsError.referenceError "next"), [])

/-- The DELETE /:id handler body (jobs.js lines 122-129): call
`Job.remove` with the path id and send `{deleted: +id}`, the id
numerically coerced; every thrown error is forwarded via `next`. -/
def deleteHandler (idStr : String) (db : List Job) : HttpOutcome × List RepoCall :=
  match removeOp db idStr with
  | Except.ok _ =>
      (HttpOutcome.sent 200 (ResponseBody.deleted (jsPlus (JsValue.str idStr))),
        [RepoCall.remove idStr])
  | Except.error e => (HttpOutcome.errorForwarded e, [RepoCall.remove idStr])

/-- Modelled from the spec: the `ensureAdmin` middleware
(`middleware/auth` is not under src/; sections 4.4 and 7): a request
not authorized as admin is answered through the error responder with
UnauthorizedError before the route handler runs; an admin request
proceeds to the handler. -/
def ensureAdmin (isAdmin : Bool) (k : Unit → HttpOutcome × List RepoCall) :
    HttpOutcome × List RepoCall :=
  if isAdmin then k () else (HttpOutcome.errorForwarded JsError.unauthorized, [])

/-- Route POST / with its middleware chain (jobs.js line 26). -/
def dispatchPost (companies : List String) (isAdmin : Bool) (body : JsObject)
    (db : List Job) : HttpOutcome × List RepoCall :=
  ensureAdmin isAdmin (fun _ => postHandler companies body db)

/-- Route GET / — registered with no middleware (jobs.js line 53). -/
def dispatchList (q : JsObject) (db : List Job) : HttpOutcome × List RepoCall :=
  listHandler q db

/-- Route GET /:id — registered with no middleware (jobs.js line 82). -/
def dispatchGetId (idStr : String) (db : List Job) : HttpOutcome × List RepoCall :=
  getHandler idStr db

/-- Route PATCH /:id with its middleware chain (jobs.js line 101). -/
def dispatchPatch (isAdmin : Bool) (idStr : String) (body : JsObject)
    (db : List Job) : HttpOutcome × List RepoCall :=
  ensureAdmin isAdmin (fun _ => patchHandler idStr body db)

/-- Route DELETE /:id with its middleware chain (jobs.js line 122). -/
def dispatchDelete (isAdmin : Bool) (idStr : String) (db : List Job) :
    HttpOutcome × List RepoCall :=
  ensureAdmin isAdmin (fun _ => deleteHandler idStr db)

/-- A creation body that passes the job creation schema, as in the
end-to-end example of spec section 8. -/
def jNewBody : JsObject :=
  [("title", JsValue.str "J-new"), ("salary", JsValue.num 10),
   ("equity", JsValue.str "0.2"), ("companyHandle", JsValue.str "c1")]

theorem objGet_objSet_self (o : JsObject) (k : String) (v : JsValue) :
    objGet (objSet o k v) k = some v := by
  induction o with
  | nil => simp [objGet, objSet]
  | cons p rest ih =>
      obtain ⟨k', v'⟩ := p
      by_cases h : k' = k
      · simp [objGet, objSet, h]
      · simp [objGet, objSet, h, ih]

theorem objGet_objSet_ne (o : JsObject) (k k' : String) (v : JsValue)
    (h : k ≠ k') : objGet (objSet o k v) k' = objGet o k' := by
  induction o with
  | nil => simp [objGet, objSet, h]
  | cons p rest ih =>
      obtain ⟨k₀, v₀⟩ := p
      by_cases h₀ : k₀ = k
      · subst h₀
        simp [objGet, objSet, h]
      · simp [objGet, objSet, h₀, ih]

/-- C7. For every GET /jobs request, the coercion the handler applies to
the query object before validation replaces a present `minSalary` by its
numeric coercion (and leaves it absent when absent), and sets
`hasEquity` to the boolean that is true exactly when the incoming query
value is the string "true" and false for every other value, including
absence. -/
theorem coerceQuery_spec (q : JsObject) :
    objGet (coerceQuery q) "minSalary" = (objGet q "minSalary").map jsPlus ∧
    objGet (coerceQuery q) "hasEquity" =
      some (JsValue.bool (decide (objGet q "hasEquity" = some (JsValue.str "true")))) := by
  constructor
  · unfold coerceQuery
    cases h : objGet q "minSalary" with
    | none =>
        simp only [h]
        rw [objGet_objSet_ne _ _ _ _ (by decide)]
        simp [h]
    | some v =>
        simp only [h]
        rw [objGet_objSet_ne _ _ _ _ (by decide), objGet_objSet_self]
        simp
  · unfold coerceQuery
    cases h : objGet q "minSalary" with
    | none => simp only [h]; rw [objGet_objSet_self]
    | some v =>
        simp only [h]
        rw [objGet_objSet_self,
            objGet_objSet_ne _ _ _ _ (by decide : "minSalary" ≠ "hasEquity")]

/-- C10. The query object the GET /jobs handler dispatches onward (to
schema validation, and to Job.findAll in its success branch) always
carries a `hasEquity` key holding a boolean: when the request had no
`hasEquity` parameter, or any value other than the string "true", the
key is present with value false rather than absent. -/
theorem coerced_hasEquity_always_boolean (q : JsObject) :
    ∃ b : Bool, objGet (coerceQuery q) "hasEquity" = some (JsValue.bool b) ∧
      (b = true ↔ objGet q "hasEquity" = some (JsValue.str "true")) := by
  refine ⟨decide (objGet q "hasEquity" = some (JsValue.str "true")),
    (coerceQuery_spec q).2, ?_⟩
  simp

theorem mem_insertByTitle (j k : Job) (l : List Job) :
    j ∈ insertByTitle k l ↔ j = k ∨ j ∈ l := by
  induction l with
  | nil => simp [insertByTitle]
  | cons m ms ih =>
      unfold insertByTitle
      cases compare k.title m.title <;> (simp [ih]; try tauto)

theorem mem_sortByTitle (j : Job) (l : List Job) :
    j ∈ sortByTitle l ↔ j ∈ l := by
  induction l with
  | nil => simp [sortByTitle]
  | cons m ms ih => simp [sortByTitle, mem_insertByTitle, ih]

theorem filter_of_all {α : Type} (p : α → Bool) (l : List α)
    (h : ∀ a, p a = true) : l.filter p = l := by
  induction l with
  | nil => rfl
  | cons a as ih => simp [List.filter, h, ih]

/-- C8. `findAll` with `hasEquity` true returns exactly the jobs whose
equity is strictly greater than zero; with `hasEquity` false it returns
the very same list as with the filter omitted, and with the filter
omitted every job is returned regardless of equity (false means no
equity filter, not equity equal to zero). -/
theorem findAll_hasEquity_semantics (db : List Job) (j : Job) :
    (j ∈ findAll db [("hasEquity", JsValue.bool true)] ↔
      j ∈ db ∧ hasPositiveEquity j = true) ∧
    findAll db [("hasEquity", JsValue.bool false)] = findAll db [] ∧
    (j ∈ findAll db [] ↔ j ∈ db) := by
  have htrue : filtersOf [("hasEquity", JsValue.bool true)] =
      { minSalary := none, hasEquity := some true, title := none } := by decide
  have hfalse : filtersOf [("hasEquity", JsValue.bool false)] =
      { minSalary := none, hasEquity := some false, title := none } := by decide
  have hnone : filtersOf [] =
      { minSalary := none, hasEquity := none, title := none } := by rfl
  have hmatchTrue : ∀ k : Job,
      jobMatches { minSalary := none, hasEquity := some true, title := none } k =
        hasPositiveEquity k := by
    intro k; simp [jobMatches]
  have hmatchFalse : ∀ k : Job,
      jobMatches { minSalary := none, hasEquity := some false, title := none } k = true := by
    intro k; simp [jobMatches]
  have hmatchNone : ∀ k : Job,
      jobMatches { minSalary := none, hasEquity := none, title := none } k = true := by
    intro k; simp [jobMatches]
  refine ⟨?_, ?_, ?_⟩
  · unfold findAll
    rw [htrue, mem_sortByTitle, List.mem_filter]
    constructor
    · rintro ⟨hmem, hp⟩
      exact ⟨hmem, by rwa [hmatchTrue j] at hp⟩
    · rintro ⟨hmem, hp⟩
      exact ⟨hmem, by rwa [hmatchTrue j]⟩
  · unfold findAll
    rw [hfalse, hnone, filter_of_all _ _ hmatchFalse, filter_of_all _ _ hmatchNone]
  · unfold findAll
    rw [hnone, mem_sortByTitle, filter_of_all _ _ hmatchNone]

/-- C1. The empty query passes the coerced search schema, yet the GET
/jobs handler still answers it 400 (with an empty violation list) and
never calls Job.findAll, because line 62 of jobs.js tests the
nonexistent property `validator.validate` instead of `validator.valid`;
a query with an unrecognized key does fail the schema.  This
contradicts the handler's own tests, which expect 200 with the job
list for schema-valid queries. -/
theorem getJobs_valid_query_still_rejected :
    (jobSearchValidate (coerceQuery [])).valid = true ∧
    listHandler [] [] = (HttpOutcome.errorForwarded (JsError.badRequest []), []) ∧
    respondStatus (HttpOutcome.errorForwarded (JsError.badRequest [])) = some 400 ∧
    (jobSearchValidate (coerceQuery [("nothing", JsValue.str "nothing")])).valid = false := by
  decide

/-- C2. An admin PATCH /jobs/:id request whose body passes the update
schema and whose id names an existing job does not get the claimed 200
with the updated job: the handler is declared `async function ()` with
no parameters (jobs.js line 101), so it crashes on the unbound `req`,
the unbound `next` in its catch block lets the error escape, no
response is sent and Job.update is never called.  This contradicts the
route's own test suite. -/
theorem patchJobs_admin_valid_crashes :
    (jobUpdateValidate [("title", JsValue.str "J-New")]).valid = true ∧
    (([⟨1, "J1", some 1, some (1 / 10 : ℚ), "c1"⟩] : List Job).find?
        (fun j => rowMatches "1" j)).isSome = true ∧
    dispatchPatch true "1" [("title", JsValue.str "J-New")]
        [⟨1, "J1", some 1, some (1 / 10 : ℚ), "c1"⟩] =
      (HttpOutcome.noResponse (JsError.referenceError "next"), []) ∧
    respond (HttpOutcome.noResponse (JsError.referenceError "next")) = none := by
  decide

/-- C3. Every non-admin POST, PATCH or DELETE request is stopped by the
ensureAdmin middleware with a 401 through the error responder and no
repository call, while the two GET routes are registered without the
middleware: GET /jobs is answered the same way for every caller
(currently always 400 through the line-62 defect) and GET /jobs/:id
always yields 200 or 404, never 401. -/
theorem writes_admin_only_reads_open (companies : List String) (body q : JsObject)
    (idStr : String) (db : List Job) :
    dispatchPost companies false body db =
      (HttpOutcome.errorForwarded JsError.unauthorized, []) ∧
    dispatchPatch false idStr body db =
      (HttpOutcome.errorForwarded JsError.unauthorized, []) ∧
    dispatchDelete false idStr db =
      (HttpOutcome.errorForwarded JsError.unauthorized, []) ∧
    respondStatus (HttpOutcome.errorForwarded JsError.unauthorized) = some 401 ∧
    dispatchList q db =
      (HttpOutcome.errorForwarded
        (JsError.badRequest (jobSearchValidate (coerceQuery q)).errors), []) ∧
    (∃ s b, respond (dispatchGetId idStr db).1 = some (s, b) ∧ (s = 200 ∨ s = 404)) := by
  refine ⟨rfl, rfl, rfl, rfl, rfl, ?_⟩
  cases h : db.find? (fun j => rowMatches idStr j) with
  | some j =>
      refine ⟨200, ResponseBody.jobBody j, ?_, Or.inl rfl⟩
      simp [dispatchGetId, getHandler, getOp, h, respond]
  | none =>
      refine ⟨404, ResponseBody.errBody ["No job: " ++ idStr] 404, ?_, Or.inr rfl⟩
      simp [dispatchGetId, getHandler, getOp, h, respond, statusOf, messagesOf]

/-- C4, counterexample. A body that passes the creation schema does not
guarantee a 201: when its companyHandle references no existing company,
Job.create (which is called with the body) fails with NotFoundError and
the response is 404, not 201. -/
theorem postJobs_valid_body_unknown_company_404 :
    (jobNewValidate jNewBody).valid = true ∧
    dispatchPost [] true jNewBody [] =
      (HttpOutcome.errorForwarded (JsError.notFound "No company: c1"),
        [RepoCall.create jNewBody]) ∧
    respondStatus (HttpOutcome.errorForwarded (JsError.notFound "No company: c1")) =
      some 404 := by
  decide

/-- C4, amended. For every admin POST /jobs request: a body failing the
creation schema yields a BadRequestError carrying the full list of
violation messages, responded 400, with no repository call; a body
passing the schema leads to a Job.create call with that body, and when
its companyHandle references an existing company the response is 201
with the created job. -/
theorem postJobs_amended (companies : List String) (body : JsObject) (db : List Job)
    (t : String) (s : Int) (e ch : String)
    (h1 : objGet body "title" = some (JsValue.str t))
    (h2 : objGet body "salary" = some (JsValue.num s))
    (h3 : objGet body "equity" = some (JsValue.str e))
    (h4 : objGet body "companyHandle" = some (JsValue.str ch))
    (h5 : companies.contains ch = true) :
    dispatchPost companies true body db =
      (HttpOutcome.sent 201 (ResponseBody.jobBody
        { id := freshId db, title := t, salary := some s,
          equity := parseEquity e, companyHandle := ch }), [RepoCall.create body]) ∧
    ∀ body2 : JsObject, (jobNewValidate body2).valid = false →
      dispatchPost companies true body2 db =
        (HttpOutcome.errorForwarded (JsError.badRequest (jobNewValidate body2).errors),
          []) := by
  constructor
  · have hv : (jobNewValidate body).valid = true := by
      simp [jobNewValidate, h1, h2, h3, h4]
    have h5' : ch ∈ companies := by simpa using h5
    simp [dispatchPost, ensureAdmin, postHandler, hv, createOp, h1, h2, h3, h4, h5']
  · intro body2 hv
    simp [dispatchPost, ensureAdmin, postHandler, hv]

theorem postJobs_amended_witness :
    dispatchPost ["c1"] true jNewBody [] =
      (HttpOutcome.sent 201 (ResponseBody.jobBody
        { id := 1, title := "J-new", salary := some 10,
          equity := parseEquity "0.2", companyHandle := "c1" }),
        [RepoCall.create jNewBody]) :=
  (postJobs_amended ["c1"] jNewBody [] "J-new" 10 "0.2" "c1"
    (by decide) (by decide) (by decide) (by decide) (by decide)).1

/-- C5. On an id naming no job, the get and remove operations fail with
NotFoundError and the GET and DELETE handlers turn that into a 404
response — but the PATCH handler never does: it crashes on its unbound
identifiers before reaching Job.update, sends no response at all and so
never produces the claimed 404. -/
theorem missing_id_responses :
    getOp [] "0" = Except.error (JsError.notFound "No job: 0") ∧
    respondStatus (dispatchGetId "0" []).1 = some 404 ∧
    respondStatus (dispatchDelete true "0" []).1 = some 404 ∧
    dispatchPatch true "0" [("title", JsValue.str "x")] [] =
      (HttpOutcome.noResponse (JsError.referenceError "next"), []) :=
  ⟨rfl, by decide, by decide, by decide⟩

/-- C6. An admin DELETE /jobs/:id request on an existing job calls
Job.remove with the raw path id and responds 200 with body
`{deleted: id}` holding the number-typed coercion of the id path
segment. -/
theorem deleteJobs_admin_existing (idStr : String) (n : Int) (db : List Job)
    (h1 : jsToNumber idStr = JsValue.num n)
    (h2 : (db.find? (fun j => rowMatches idStr j)).isSome = true) :
    dispatchDelete true idStr db =
      (HttpOutcome.sent 200 (ResponseBody.deleted (JsValue.num n)),
        [RepoCall.remove idStr]) := by
  cases h : db.find? (fun j => rowMatches idStr j) with
  | none => rw [h] at h2; exact absurd h2 (by simp)
  | some j =>
      simp [dispatchDelete, ensureAdmin, deleteHandler, removeOp, h, jsPlus, h1]

theorem deleteJobs_admin_existing_witness :
    dispatchDelete true "1" [⟨1, "J1", some 1, some (1 / 10 : ℚ), "c1"⟩] =
      (HttpOutcome.sent 200 (ResponseBody.deleted (JsValue.num 1)),
        [RepoCall.remove "1"]) :=
  deleteJobs_admin_existing "1" 1 [⟨1, "J1", some 1, some (1 / 10 : ℚ), "c1"⟩]
    (by decide) (by decide)

/-- C9. The PATCH handler does not forward its errors to the
centralized responder: for every request reaching it, the
ReferenceError raised on the unbound `req` is caught by the handler's
catch block, but the block's `next(error)` evaluates the equally
unbound `next`, so the error escapes the async handler unforwarded and
the exchange ends with no response. -/
theorem patch_errors_escape_unforwarded (idStr : String) (body : JsObject)
    (db : List Job) :
    patchHandler idStr body db =
      (HttpOutcome.noResponse (JsError.referenceError "next"), []) := rfl

end Jobly
